import Mathlib

/-!
Verification development for the yandexgpt-bot repository.

The development shallowly embeds the per-chat usage-limiting and
conversation-state subsystem:
 - the file/in-memory backend of `state.py` (dictionaries `PROMPTS`,
   `HISTORIES`, `DAILY_USAGE`, `DAILY_IMAGE_USAGE`, `UNLIMITED_IDS`), and
 - the relational backend of `yandexgpt_bot/yandexgpt_bot/db.py`
   (tables `chats`, `system_prompts`, `messages`, `usage_records`,
   `image_usage_records`),
together with the command handlers of `handlers.py` (`ask_cmd`,
`setprompt_cmd`, `reset_cmd`, `image_cmd`).

Python dictionaries are modelled as association lists with unique keys,
calendar dates and timestamps as natural numbers (the callers pass
`datetime.date.today()` resp. `datetime.datetime.utcnow()`; here they are
explicit `today` / `todayStart` / `now` parameters), and the encryption
codec of the relational backend as the identity (its `set_prompt` /
`get_prompt` and `set_content` / `get_content` pairs are inverse by
construction, and the spec treats the codec as opaque).
-/

namespace YaBot

/-- Message role, the `role` column/field: `"system"`, `"user"`, `"assistant"`. -/
inductive Role where
  | system
  | user
  | assistant
deriving DecidableEq

/-- One conversation turn, a dict of the form `{"role": r, "text": t}`. -/
structure Turn where
  role : Role
  text : String
deriving DecidableEq

/-! Association lists standing for Python dictionaries (unique keys).
`aset` is dictionary assignment `d[k] = v`, `aerase` is `d.pop(k, None)`,
`alookup` is `d.get(k)`. -/

def alookup {α : Type} (k : Int) : List (Int × α) → Option α
  | [] => none
  | p :: rest => if p.1 = k then some p.2 else alookup k rest

def aset {α : Type} (k : Int) (v : α) : List (Int × α) → List (Int × α)
  | [] => [(k, v)]
  | p :: rest => if p.1 = k then (k, v) :: rest else p :: aset k v rest

def aerase {α : Type} (k : Int) : List (Int × α) → List (Int × α)
  | [] => []
  | p :: rest => if p.1 = k then aerase k rest else p :: aerase k rest

/-- The in-memory state of `state.py`: module-level dictionaries
`PROMPTS`, `HISTORIES`, `DAILY_USAGE`, `DAILY_IMAGE_USAGE` and the set
`UNLIMITED_IDS`.  A usage entry is a pair `(date, count)`. -/
structure MemState where
  prompts : List (Int × String)
  histories : List (Int × List Turn)
  dailyUsage : List (Int × (Nat × Nat))
  dailyImageUsage : List (Int × (Nat × Nat))
  unlimitedIds : List Int
deriving DecidableEq

/-- `_is_unlimited` of `state.py`, in-memory branch: `chat_id in UNLIMITED_IDS`. -/
def isUnlimitedMem (s : MemState) (chat : Int) : Bool :=
  s.unlimitedIds.contains chat

/-- The shared body of `_check_and_increment_usage` and
`_check_and_increment_image_usage` (state.py lines 222-230 resp. 248-256)
acting on one usage dictionary:

  today = date.today()
  last_date, count = USAGE.get(chat_id, (today, 0))
  if last_date != today: count = 0
  if count >= LIMIT: return False
  USAGE[chat_id] = (today, count + 1)
  return True
-/
def stepQuota (limit today : Nat) (chat : Int) (u : List (Int × (Nat × Nat))) :
    Bool × List (Int × (Nat × Nat)) :=
  let p := (alookup chat u).getD (today, 0)
  let count := if p.1 ≠ today then 0 else p.2
  if limit ≤ count then (false, u)
  else (true, aset chat (today, count + 1) u)

/-- `_check_and_increment_usage` of `state.py`, in-memory branch
(lines 219-230). -/
def checkAndIncrementUsageMem (dailyLimit today : Nat) (s : MemState) (chat : Int) :
    Bool × MemState :=
  if isUnlimitedMem s chat then (true, s)
  else
    let r := stepQuota dailyLimit today chat s.dailyUsage
    (r.1, { s with dailyUsage := r.2 })

/-- `_check_and_increment_image_usage` of `state.py`, in-memory branch
(lines 245-256). -/
def checkAndIncrementImageUsageMem (imageLimit today : Nat) (s : MemState) (chat : Int) :
    Bool × MemState :=
  if isUnlimitedMem s chat then (true, s)
  else
    let r := stepQuota imageLimit today chat s.dailyImageUsage
    (r.1, { s with dailyImageUsage := r.2 })

/-- The two quota classes of the system. -/
inductive QuotaKind where
  | text
  | image
deriving DecidableEq

/-- Dispatch over the quota kind to the corresponding check-and-increment
function of `state.py`. -/
def checkAndIncrementMem (kind : QuotaKind) (limit today : Nat) (s : MemState) (chat : Int) :
    Bool × MemState :=
  match kind with
  | .text => checkAndIncrementUsageMem limit today s chat
  | .image => checkAndIncrementImageUsageMem limit today s chat

/-- The usage dictionary of a given kind. -/
def usageOf (kind : QuotaKind) (s : MemState) : List (Int × (Nat × Nat)) :=
  match kind with
  | .text => s.dailyUsage
  | .image => s.dailyImageUsage

/-- The counter a quota check observes for `chat` today: the stored count
when the stored date is `today`, and `0` otherwise (also when no entry is
stored). -/
def todayCount (today : Nat) (chat : Int) (u : List (Int × (Nat × Nat))) : Nat :=
  match alookup chat u with
  | some p => if p.1 = today then p.2 else 0
  | none => 0

def countTodayMem (kind : QuotaKind) (today : Nat) (s : MemState) (chat : Int) : Nat :=
  todayCount today chat (usageOf kind s)

/-- Update the usage dictionary of a given kind. -/
def withUsage (kind : QuotaKind) (u : List (Int × (Nat × Nat))) (s : MemState) : MemState :=
  match kind with
  | .text => { s with dailyUsage := u }
  | .image => { s with dailyImageUsage := u }

/-- `_truncate_history` of `state.py` (lines 184-188):

  extra = len(history) - (1 + 2 * MAX_HISTORY_TURNS)
  if extra > 0: del history[1:1 + extra]
-/
def truncateHistory (maxTurns : Nat) (h : List Turn) : List Turn :=
  if 1 + 2 * maxTurns < h.length then
    h.take 1 ++ h.drop (1 + (h.length - (1 + 2 * maxTurns)))
  else h

/-- `_ensure_context` of `state.py`, in-memory branch (lines 178-182):
creates `[{"role": "system", "text": PROMPTS.get(chat_id, DEFAULT)}]` when
the chat has no history, and returns the stored history otherwise. -/
def ensureContextMem (dp : String) (s : MemState) (chat : Int) : List Turn × MemState :=
  match alookup chat s.histories with
  | some h => (h, s)
  | none =>
    let prompt := (alookup chat s.prompts).getD dp
    ([⟨Role.system, prompt⟩],
     { s with histories := aset chat [⟨Role.system, prompt⟩] s.histories })

/-- `_reset_chat_history` of `state.py`, in-memory effect (line 277):
`HISTORIES.pop(chat_id, None)`. -/
def resetChatHistoryMem (s : MemState) (chat : Int) : MemState :=
  { s with histories := aerase chat s.histories }

/-- `setprompt_cmd` of `handlers.py` in file-backend mode, the body after
the authorization and empty-argument guards (lines 112-136; both guards
return without mutating any state):
`PROMPTS[chat] = p`; `_reset_chat_history`; `HISTORIES[chat] = [system p]`;
`_save_state` (pure persistence, no state-value change); `_ensure_context`. -/
def setpromptCmdMem (dp : String) (s : MemState) (chat : Int) (newPrompt : String) : MemState :=
  let s1 := { s with prompts := aset chat newPrompt s.prompts }
  let s2 := resetChatHistoryMem s1 chat
  let s3 := { s2 with histories := aset chat [⟨Role.system, newPrompt⟩] s2.histories }
  (ensureContextMem dp s3 chat).2

/-- `reset_cmd` of `handlers.py` in file-backend mode (lines 159-170):
`PROMPTS.pop(chat)`; `_reset_chat_history`; `_ensure_context`; `_save_state`. -/
def resetCmdMem (dp : String) (s : MemState) (chat : Int) : MemState :=
  let s1 := { s with prompts := aerase chat s.prompts }
  let s2 := resetChatHistoryMem s1 chat
  (ensureContextMem dp s2 chat).2

/-- Outcome of an `/ask` command, one constructor per `reply_text` exit of
`ask_cmd`. -/
inductive AskOutcome where
  | limitReached
  | usageHint
  | tooLong
  | providerError
  | answered (a : String)
deriving DecidableEq

/-- `ask_cmd` of `handlers.py` in file-backend mode (lines 36-82,
`USE_DATABASE` false).  `question` is the text after the
reply-to-message fallback of lines 48-50; `provider` is the outcome of
`generate_reply` (`Except.error` when it raises). -/
def askCmdMem (dp : String) (maxTurns dailyLimit maxQLen today : Nat)
    (provider : Except String String)
    (s : MemState) (chat : Int) (question : String) : AskOutcome × MemState :=
  let r := checkAndIncrementUsageMem dailyLimit today s chat
  if !r.1 then (.limitReached, r.2)
  else if question = "" then (.usageHint, r.2)
  else if maxQLen < question.length then (.tooLong, r.2)
  else
    let c := ensureContextMem dp r.2 chat
    let h1 := truncateHistory maxTurns (c.1 ++ [⟨Role.user, question⟩])
    let s3 := { c.2 with histories := aset chat h1 c.2.histories }
    match provider with
    | .error _ => (.providerError, s3)
    | .ok ans =>
      (.answered ans, { s3 with histories := aset chat (h1 ++ [⟨Role.assistant, ans⟩]) s3.histories })

/-- Outcome of an `/image` command. -/
inductive ImageOutcome where
  | usageHint
  | limitReached
  | providerError
  | sent
deriving DecidableEq

/-- `image_cmd` of `handlers.py` in file-backend mode (lines 180-208,
`USE_DATABASE` false): the empty-description guard runs before the quota
check; history is never touched. -/
def imageCmdMem (imageLimit today : Nat) (providerOk : Bool)
    (s : MemState) (chat : Int) (description : String) : ImageOutcome × MemState :=
  if description = "" then (.usageHint, s)
  else
    let r := checkAndIncrementImageUsageMem imageLimit today s chat
    if !r.1 then (.limitReached, r.2)
    else if providerOk then (.sent, r.2) else (.providerError, r.2)

/-! ## The relational backend of `yandexgpt_bot/yandexgpt_bot/db.py`

Rows are kept in insertion (primary-key) order; an un-`ORDER BY`ed
`.first()` is modelled as the first row in that order.  A `session.add`
that is never followed by a `session.commit` before the session closes is
rolled back, so such writes are not part of the persisted effect. -/

/-- A row of the `chats` table (the columns the core logic reads). -/
structure DbChat where
  chatId : Int
  isUnlimited : Bool
deriving DecidableEq

/-- A row of the `messages` table (the columns the core logic reads). -/
structure DbMessage where
  chatId : Int
  role : Role
  content : String
  sequence : Nat
deriving DecidableEq

/-- A row of the `usage_records` / `image_usage_records` tables.  `date`
is a UTC timestamp (`datetime` column), modelled as a tick count. -/
structure UsageRecord where
  chatId : Int
  date : Nat
  count : Nat
deriving DecidableEq

/-- The persisted relational state. -/
structure DbState where
  chats : List DbChat
  systemPrompts : List (Int × String)
  messages : List DbMessage
  usageRecords : List UsageRecord
  imageUsageRecords : List UsageRecord
deriving DecidableEq

/-- `session.query(Chat).filter_by(chat_id=...).first()`. -/
def findChat (s : DbState) (chat : Int) : Option DbChat :=
  s.chats.find? (fun c => c.chatId == chat)

/-- `get_or_create_chat` of `db.py` (lines 197-204); the creation commits. -/
def getOrCreateChat (s : DbState) (chat : Int) : DbChat × DbState :=
  match findChat s chat with
  | some c => (c, s)
  | none => (⟨chat, false⟩, { s with chats := s.chats ++ [⟨chat, false⟩] })

/-- `set_system_prompt` of `db.py` (lines 207-218): get-or-create the chat,
then upsert the (unique per chat) `system_prompts` row. -/
def setSystemPromptDb (s : DbState) (chat : Int) (prompt : String) : DbState :=
  let s1 := (getOrCreateChat s chat).2
  { s1 with systemPrompts := aset chat prompt s1.systemPrompts }

/-- `get_system_prompt` of `db.py` (lines 221-226). -/
def getSystemPromptDb (s : DbState) (chat : Int) : Option String :=
  alookup chat s.systemPrompts

/-- `add_message` of `db.py` (lines 229-243): when `sequence` is not given,
the next sequence is one more than the largest sequence stored for the
chat (`order_by(Message.sequence.desc()).first()`), or `0` for the first
message. -/
def addMessageDb (s : DbState) (chat : Int) (role : Role) (content : String)
    (seq : Option Nat) : DbState :=
  let s1 := (getOrCreateChat s chat).2
  let sq := match seq with
    | some n => n
    | none =>
      match (s1.messages.filter (fun m => m.chatId == chat)).map (fun m => m.sequence) with
      | [] => 0
      | x :: xs => (x :: xs).foldl Nat.max 0 + 1
  { s1 with messages := s1.messages ++ [⟨chat, role, content, sq⟩] }

/-- Insertion into a sequence-sorted list (`ORDER BY sequence`). -/
def insertBySeq (m : DbMessage) : List DbMessage → List DbMessage
  | [] => [m]
  | x :: xs => if m.sequence < x.sequence then m :: x :: xs else x :: insertBySeq m xs

def sortBySeq : List DbMessage → List DbMessage
  | [] => []
  | x :: xs => insertBySeq x (sortBySeq xs)

/-- `get_chat_history` of `db.py` (lines 246-262): the chat's messages
ordered by sequence, limited when the `limit` argument is truthy
(`if limit:`, so `0` means unlimited), decrypted into role/text dicts. -/
def getChatHistoryDb (s : DbState) (chat : Int) (limit : Nat) : List Turn :=
  let msgs := sortBySeq (s.messages.filter (fun m => m.chatId == chat))
  let msgs := if limit = 0 then msgs else msgs.take limit
  msgs.map (fun m => ⟨m.role, m.content⟩)

/-- `reset_chat_history` of `db.py` (lines 265-279): deletes the chat's
messages whose role is not `"system"`; system messages are kept with
their stored content. -/
def resetChatHistoryDb (s : DbState) (chat : Int) : DbState :=
  { s with messages :=
      s.messages.filter (fun m => !(m.chatId == chat && !(m.role == Role.system))) }

/-- The first `usage_records` row matching
`chat_id == chat AND date >= today_start` (the `.first()` of
`check_and_increment_usage`, lines 294-297). -/
def firstUsage (chat : Int) (todayStart : Nat) : List UsageRecord → Option UsageRecord
  | [] => none
  | u :: rest =>
    if u.chatId == chat && decide (todayStart ≤ u.date) then some u
    else firstUsage chat todayStart rest

/-- Increment in place the row `firstUsage` finds. -/
def incFirstUsage (chat : Int) (todayStart : Nat) : List UsageRecord → List UsageRecord
  | [] => []
  | u :: rest =>
    if u.chatId == chat && decide (todayStart ≤ u.date) then
      { u with count := u.count + 1 } :: rest
    else u :: incFirstUsage chat todayStart rest

/-- The quota core of `check_and_increment_usage` /
`check_and_increment_image_usage` of `db.py` (lines 293-310 resp.
324-341) on one record table.  When no row matches, a fresh row with
count `0` is added to the session; it is committed (with count
incremented to `1`) only on the allow path — on the deny path the
session is closed by the caller without a commit, so the fresh row is
discarded. -/
def stepQuotaDb (limit todayStart : Nat) (chat : Int) (u : List UsageRecord) :
    Bool × List UsageRecord :=
  match firstUsage chat todayStart u with
  | some r =>
    if limit ≤ r.count then (false, u)
    else (true, incFirstUsage chat todayStart u)
  | none =>
    if limit ≤ 0 then (false, u)
    else (true, u ++ [⟨chat, todayStart, 1⟩])

/-- `check_and_increment_usage` of `db.py` (lines 282-310). -/
def checkAndIncrementUsageDb (s : DbState) (chat : Int) (todayStart dailyLimit : Nat) :
    Bool × DbState :=
  let c := getOrCreateChat s chat
  if c.1.isUnlimited then (true, c.2)
  else
    let r := stepQuotaDb dailyLimit todayStart chat c.2.usageRecords
    (r.1, { c.2 with usageRecords := r.2 })

/-- `check_and_increment_image_usage` of `db.py` (lines 313-341). -/
def checkAndIncrementImageUsageDb (s : DbState) (chat : Int) (todayStart dailyLimit : Nat) :
    Bool × DbState :=
  let c := getOrCreateChat s chat
  if c.1.isUnlimited then (true, c.2)
  else
    let r := stepQuotaDb dailyLimit todayStart chat c.2.imageUsageRecords
    (r.1, { c.2 with imageUsageRecords := r.2 })

/-- Dispatch over the quota kind to the corresponding `db.py` function. -/
def checkAndIncrementDb (kind : QuotaKind) (s : DbState) (chat : Int)
    (todayStart limit : Nat) : Bool × DbState :=
  match kind with
  | .text => checkAndIncrementUsageDb s chat todayStart limit
  | .image => checkAndIncrementImageUsageDb s chat todayStart limit

/-- The record table of a given kind. -/
def usageRecordsOf (kind : QuotaKind) (s : DbState) : List UsageRecord :=
  match kind with
  | .text => s.usageRecords
  | .image => s.imageUsageRecords

/-- The counter the relational quota check observes for `chat` today in a
record table: the count of the first matching row, `0` when none matches. -/
def todayCountRec (todayStart : Nat) (chat : Int) (u : List UsageRecord) : Nat :=
  match firstUsage chat todayStart u with
  | some r => r.count
  | none => 0

def todayCountDb (kind : QuotaKind) (todayStart : Nat) (s : DbState) (chat : Int) : Nat :=
  todayCountRec todayStart chat (usageRecordsOf kind s)

/-- `add_usage_record` of `db.py` (lines 368-382): unconditionally inserts
a fresh `usage_records` row (the user-detail columns are dropped here;
`count` defaults to `1`, `date` to `utcnow()`). -/
def addUsageRecordDb (s : DbState) (chat : Int) (now : Nat) (count : Nat) : DbState :=
  { s with usageRecords := s.usageRecords ++ [⟨chat, now, count⟩] }

/-! ## Database mode: the combined process state and the handler flows -/

/-- Process state in database mode: the in-memory dictionaries of
`state.py` plus the persisted relational state. -/
structure SysState where
  mem : MemState
  db : DbState
deriving DecidableEq

def historyHasSystem (h : List Turn) : Bool :=
  h.any (fun t => t.role == Role.system)

/-- `_ensure_context` of `state.py`, database branch (lines 124-176):
get-or-create the chat; when the chat is in `PROMPTS`, push that prompt
into the database and add a system message (sequence `0`) only when the
stored history has none; otherwise pull the stored prompt (falling back
to the default when absent or empty — `if not system_prompt:`) into
`PROMPTS`; finally fetch the history limited to `1 + 2*MAX_HISTORY_TURNS`
messages. -/
def ensureContextDb (dp : String) (maxTurns : Nat) (st : SysState) (chat : Int) :
    List Turn × SysState :=
  let db1 := (getOrCreateChat st.db chat).2
  match alookup chat st.mem.prompts with
  | some sp =>
    let db2 := setSystemPromptDb db1 chat sp
    let db3 := if historyHasSystem (getChatHistoryDb db2 chat 0) then db2
               else addMessageDb db2 chat Role.system sp (some 0)
    (getChatHistoryDb db3 chat (1 + 2 * maxTurns), ⟨st.mem, db3⟩)
  | none =>
    let spStored := (getSystemPromptDb db1 chat).getD ""
    if spStored = "" then
      let db2 := setSystemPromptDb db1 chat dp
      let db3 := addMessageDb db2 chat Role.system dp (some 0)
      (getChatHistoryDb db3 chat (1 + 2 * maxTurns),
       ⟨{ st.mem with prompts := aset chat dp st.mem.prompts }, db3⟩)
    else
      (getChatHistoryDb db1 chat (1 + 2 * maxTurns),
       ⟨{ st.mem with prompts := aset chat spStored st.mem.prompts }, db1⟩)

/-- `_add_message_to_history` of `state.py` (lines 259-272), database mode:
append to the in-memory history only when one exists, and always add a
message row (auto sequence). -/
def addMessageToHistoryDb (st : SysState) (chat : Int) (role : Role) (text : String) :
    SysState :=
  let mem2 := match alookup chat st.mem.histories with
    | some h => { st.mem with histories := aset chat (h ++ [⟨role, text⟩]) st.mem.histories }
    | none => st.mem
  ⟨mem2, addMessageDb st.db chat role text none⟩

/-- `_reset_chat_history` of `state.py` (lines 274-286), database mode. -/
def resetChatHistoryFull (st : SysState) (chat : Int) : SysState :=
  ⟨{ st.mem with histories := aerase chat st.mem.histories },
   resetChatHistoryDb st.db chat⟩

/-- `setprompt_cmd` of `handlers.py` in database mode, the body after the
authorization and empty-argument guards (lines 112-136):
`PROMPTS[chat] = p`; `_reset_chat_history`; `db.set_system_prompt`;
`_save_state` (no-op in database mode); `_ensure_context`.
`update_chat_user_info` is called with no fresh user info, which commits
nothing. -/
def setpromptCmdDb (dp : String) (maxTurns : Nat) (st : SysState) (chat : Int)
    (newPrompt : String) : SysState :=
  let st1 : SysState := ⟨{ st.mem with prompts := aset chat newPrompt st.mem.prompts }, st.db⟩
  let st2 := resetChatHistoryFull st1 chat
  let st3 : SysState := ⟨st2.mem, setSystemPromptDb st2.db chat newPrompt⟩
  (ensureContextDb dp maxTurns st3 chat).2

/-- `reset_cmd` of `handlers.py` in database mode (lines 159-170). -/
def resetCmdDb (dp : String) (maxTurns : Nat) (st : SysState) (chat : Int) : SysState :=
  let st1 : SysState := ⟨{ st.mem with prompts := aerase chat st.mem.prompts }, st.db⟩
  let st2 := resetChatHistoryFull st1 chat
  (ensureContextDb dp maxTurns st2 chat).2

/-- `ask_cmd` of `handlers.py` in database mode (lines 36-82,
`USE_DATABASE` true, database available): quota check (via the `db.py`
function), input validation, `_ensure_context`, user message persisted,
provider call; on success `add_usage_record` and the assistant message,
on provider failure neither. -/
def askCmdDb (dp : String) (maxTurns dailyLimit maxQLen todayStart now : Nat)
    (provider : Except String String)
    (st : SysState) (chat : Int) (question : String) : AskOutcome × SysState :=
  let r := checkAndIncrementUsageDb st.db chat todayStart dailyLimit
  let st1 : SysState := ⟨st.mem, r.2⟩
  if !r.1 then (.limitReached, st1)
  else if question = "" then (.usageHint, st1)
  else if maxQLen < question.length then (.tooLong, st1)
  else
    let st2 := (ensureContextDb dp maxTurns st1 chat).2
    let st3 := addMessageToHistoryDb st2 chat Role.user question
    match provider with
    | .error _ => (.providerError, st3)
    | .ok ans =>
      let st4 : SysState := ⟨st3.mem, addUsageRecordDb st3.db chat now 1⟩
      (.answered ans, addMessageToHistoryDb st4 chat Role.assistant ans)

/-- `_check_and_increment_usage` of `state.py` in full (lines 206-230):
in database mode the `db.py` check runs inside `try`/`except`; when the
database raises (`dbFails`), the exception is caught and logged and the
in-memory method runs instead (also when the database is disabled). -/
def checkAndIncrementUsageFull (useDatabase dbFails : Bool)
    (dailyLimit today todayStart : Nat) (st : SysState) (chat : Int) : Bool × SysState :=
  if useDatabase && !dbFails then
    let r := checkAndIncrementUsageDb st.db chat todayStart dailyLimit
    (r.1, ⟨st.mem, r.2⟩)
  else
    let r := checkAndIncrementUsageMem dailyLimit today st.mem chat
    (r.1, ⟨r.2, st.db⟩)

/-- Update the record table of a given kind. -/
def withUsageRecords (kind : QuotaKind) (u : List UsageRecord) (s : DbState) : DbState :=
  match kind with
  | .text => { s with usageRecords := u }
  | .image => { s with imageUsageRecords := u }

/-- A sequence of `/ask` commands for one chat in file-backend mode; each
request is a question together with its provider outcome. -/
def runAsksMem (dp : String) (maxTurns dailyLimit maxQLen today : Nat) (chat : Int)
    (reqs : List (String × Except String String)) (s : MemState) : MemState :=
  reqs.foldl (fun acc r => (askCmdMem dp maxTurns dailyLimit maxQLen today r.2 acc chat r.1).2) s

/-- A sequence of `/image` commands for one chat in file-backend mode. -/
def runImagesMem (imageLimit today : Nat) (chat : Int)
    (reqs : List (String × Bool)) (s : MemState) : MemState :=
  reqs.foldl (fun acc r => (imageCmdMem imageLimit today r.2 acc chat r.1).2) s

/-- State for the C3 counterexample: database mode, chat 1 already has the
system message "old" (sequence 0) and stored prompt "old". -/
def c3State : SysState :=
  ⟨⟨[], [], [], [], []⟩,
   ⟨[⟨1, false⟩], [(1, "old")], [⟨1, Role.system, "old", 0⟩], [], []⟩⟩

/-- State for the C4 counterexample: database mode, chat 1 with custom
prompt "custom" previously set via `setprompt`. -/
def c4State : SysState :=
  ⟨⟨[(1, "custom")], [], [], [], []⟩,
   ⟨[⟨1, false⟩], [(1, "custom")], [⟨1, Role.system, "custom", 0⟩], [], []⟩⟩

/-- State for the C6 counterexample: database mode, chat 3 whitelisted,
no usage records stored. -/
def c6State : SysState := ⟨⟨[], [], [], [], []⟩, ⟨[⟨3, true⟩], [], [], [], []⟩⟩

/-- State for the C7 counterexample: database mode, chat 1 not
whitelisted, database counter at the limit 15 for today, in-memory
counters empty (as they are when the database is the active backend). -/
def c7State : SysState := ⟨⟨[], [], [], [], []⟩, ⟨[⟨1, false⟩], [], [], [⟨1, 100, 15⟩], []⟩⟩

/-- State for the C9 counterexample: database mode, chat 5 not
whitelisted, no usage records stored. -/
def c9State : SysState := ⟨⟨[], [], [], [], []⟩, ⟨[⟨5, false⟩], [], [], [], []⟩⟩

/-! ## Helper lemmas -/

theorem alookup_aset_self {α : Type} (k : Int) (v : α) (l : List (Int × α)) :
    alookup k (aset k v l) = some v := by
  induction l with
  | nil => simp [aset, alookup]
  | cons p rest ih =>
    by_cases h : p.1 = k
    · simp [aset, alookup, h]
    · simp [aset, alookup, h, ih]

theorem alookup_aset_ne {α : Type} {c k : Int} (h : c ≠ k) (v : α) (l : List (Int × α)) :
    alookup c (aset k v l) = alookup c l := by
  have hkc : ¬ k = c := fun hh => h (Eq.symm hh)
  induction l with
  | nil => simp [aset, alookup, hkc]
  | cons p rest ih =>
    by_cases hp : p.1 = k
    · have hpc : ¬ p.1 = c := by rw [hp]; exact hkc
      simp [aset, alookup, hp, hpc, hkc]
    · simp [aset, alookup, hp, ih]

theorem alookup_aerase_self {α : Type} (k : Int) (l : List (Int × α)) :
    alookup k (aerase k l) = none := by
  induction l with
  | nil => simp [aerase, alookup]
  | cons p rest ih =>
    by_cases h : p.1 = k
    · simp [aerase, h, ih]
    · simp [aerase, alookup, h, ih]

theorem mem_map_fst_aset {α : Type} (c k : Int) (v : α) (l : List (Int × α)) :
    c ∈ (aset k v l).map Prod.fst → c = k ∨ c ∈ l.map Prod.fst := by
  induction l with
  | nil => simp [aset]
  | cons p rest ih =>
    by_cases h : p.1 = k
    · simp only [aset, h, if_pos]
      intro hm
      rcases List.mem_cons.mp hm with h1 | h1
      · exact Or.inl h1
      · exact Or.inr (List.mem_cons.mpr (Or.inr h1))
    · simp only [aset, h, if_neg, not_false_iff, List.map_cons]
      intro hm
      rcases List.mem_cons.mp hm with h1 | h1
      · exact Or.inr (List.mem_cons.mpr (Or.inl h1))
      · rcases ih h1 with h2 | h2
        · exact Or.inl h2
        · exact Or.inr (List.mem_cons.mpr (Or.inr h2))

theorem nodup_map_fst_aset {α : Type} (k : Int) (v : α) (l : List (Int × α))
    (h : (l.map Prod.fst).Nodup) : ((aset k v l).map Prod.fst).Nodup := by
  induction l with
  | nil => simp [aset]
  | cons p rest ih =>
    rw [List.map_cons, List.nodup_cons] at h
    by_cases hp : p.1 = k
    · simp only [aset, hp, if_pos, List.map_cons, List.nodup_cons]
      exact ⟨by rw [← hp]; exact h.1, h.2⟩
    · simp only [aset, hp, if_neg, not_false_iff, List.map_cons, List.nodup_cons]
      refine ⟨fun hm => ?_, ih h.2⟩
      rcases mem_map_fst_aset p.1 k v rest hm with h1 | h1
      · exact hp h1
      · exact h.1 h1

theorem not_mem_map_fst_filter_eq {α : Type} (c : Int) (l : List (Int × α))
    (h : c ∉ l.map Prod.fst) : l.filter (fun p => p.1 == c) = [] := by
  induction l with
  | nil => rfl
  | cons p rest ih =>
    rw [List.map_cons, List.mem_cons, not_or] at h
    have hne : ¬ p.1 = c := fun hh => h.1 (Eq.symm hh)
    rw [List.filter_cons_of_neg (by simpa using hne)]
    exact ih h.2

theorem nodup_filter_length_le_one {α : Type} (c : Int) (l : List (Int × α))
    (h : (l.map Prod.fst).Nodup) : (l.filter (fun p => p.1 == c)).length ≤ 1 := by
  induction l with
  | nil => simp
  | cons p rest ih =>
    rw [List.map_cons, List.nodup_cons] at h
    by_cases hp : p.1 = c
    · rw [List.filter_cons_of_pos (by simp [hp])]
      rw [hp] at h
      rw [not_mem_map_fst_filter_eq c rest h.1]
      simp
    · rw [List.filter_cons_of_neg (by simp [hp])]
      exact ih h.2

/-- The in-memory quota core in terms of the observed today-counter. -/
theorem stepQuota_eq (limit today : Nat) (chat : Int) (u : List (Int × (Nat × Nat))) :
    stepQuota limit today chat u =
      if limit ≤ todayCount today chat u then (false, u)
      else (true, aset chat (today, todayCount today chat u + 1) u) := by
  unfold stepQuota todayCount
  cases h : alookup chat u with
  | none => simp
  | some p => by_cases hd : p.1 = today <;> simp [hd]

theorem stepQuota_deny (limit today : Nat) (chat : Int) (u : List (Int × (Nat × Nat)))
    (h : limit ≤ todayCount today chat u) :
    stepQuota limit today chat u = (false, u) := by
  rw [stepQuota_eq, if_pos h]

theorem stepQuota_allow (limit today : Nat) (chat : Int) (u : List (Int × (Nat × Nat)))
    (h : todayCount today chat u < limit) :
    stepQuota limit today chat u =
      (true, aset chat (today, todayCount today chat u + 1) u) := by
  rw [stepQuota_eq, if_neg (Nat.not_le.mpr h)]

theorem todayCount_aset_self (today : Nat) (chat : Int) (c : Nat)
    (u : List (Int × (Nat × Nat))) :
    todayCount today chat (aset chat (today, c) u) = c := by
  unfold todayCount
  rw [alookup_aset_self]
  simp

theorem todayCount_aset_ne (today : Nat) {c chat : Int} (h : c ≠ chat) (v : Nat × Nat)
    (u : List (Int × (Nat × Nat))) :
    todayCount today c (aset chat v u) = todayCount today c u := by
  unfold todayCount
  rw [alookup_aset_ne h]

/-- `_truncate_history` on a nonempty history keeps the head and drops the
oldest elements of the tail beyond the most recent `2 * maxTurns`. -/
theorem truncateHistory_cons (m : Nat) (hd : Turn) (tl : List Turn) :
    truncateHistory m (hd :: tl) = hd :: tl.drop (tl.length - 2 * m) := by
  unfold truncateHistory
  by_cases h : 1 + 2 * m < (hd :: tl).length
  · rw [if_pos h]
    simp only [List.length_cons] at h
    have h3 : 1 + ((hd :: tl).length - (1 + 2 * m)) = (tl.length - 2 * m) + 1 := by
      simp only [List.length_cons]; omega
    rw [h3, List.drop_succ_cons]
    simp
  · rw [if_neg h]
    simp only [List.length_cons, not_lt] at h
    have h0 : tl.length - 2 * m = 0 := by omega
    rw [h0, List.drop_zero]

theorem getLast_drop_eq {α : Type} :
    ∀ (l : List α) (k : Nat), k < l.length → (l.drop k).getLast? = l.getLast? := by
  intro l
  induction l with
  | nil => intro k h; simp at h
  | cons x xs ih =>
    intro k h
    cases k with
    | zero => rfl
    | succ k =>
      rw [List.drop_succ_cons]
      have hk : k < xs.length := by simpa using h
      rw [ih k hk]
      cases xs with
      | nil => simp at hk
      | cons y ys => rw [List.getLast?_cons_cons]

/-- After appending a turn and truncating, the appended turn is still in
the history as long as the window holds at least one turn pair. -/
theorem truncate_keeps_appended (m : Nat) (hm : 1 ≤ m) (l : List Turn) (t : Turn) :
    t ∈ truncateHistory m (l ++ [t]) := by
  cases l with
  | nil =>
    simp only [List.nil_append]
    unfold truncateHistory
    rw [if_neg (by simp only [List.length_cons, List.length_nil]; omega)]
    simp
  | cons hd tl =>
    rw [List.cons_append, truncateHistory_cons]
    have hk : (tl ++ [t]).length - 2 * m < (tl ++ [t]).length := by
      simp only [List.length_append, List.length_cons, List.length_nil]
      omega
    have hlast : ((tl ++ [t]).drop ((tl ++ [t]).length - 2 * m)).getLast? = some t := by
      rw [getLast_drop_eq _ _ hk, List.getLast?_concat]
    exact List.mem_cons.mpr (Or.inr (List.mem_of_mem_getLast? (by rw [hlast]; rfl)))

/-! ### Characterizations of the in-memory quota checks -/

theorem checkMem_unlimited (kind : QuotaKind) (limit today : Nat) (s : MemState) (chat : Int)
    (h : isUnlimitedMem s chat = true) :
    checkAndIncrementMem kind limit today s chat = (true, s) := by
  cases kind <;>
    simp [checkAndIncrementMem, checkAndIncrementUsageMem, checkAndIncrementImageUsageMem, h]

theorem checkMem_deny (kind : QuotaKind) (limit today : Nat) (s : MemState) (chat : Int)
    (hUnl : isUnlimitedMem s chat = false)
    (h : limit ≤ countTodayMem kind today s chat) :
    checkAndIncrementMem kind limit today s chat = (false, s) := by
  cases kind <;>
    · unfold countTodayMem usageOf at h
      simp only [checkAndIncrementMem, checkAndIncrementUsageMem,
        checkAndIncrementImageUsageMem, hUnl, Bool.false_eq_true, if_neg,
        not_false_iff, stepQuota_deny _ _ _ _ h]

theorem checkMem_allow (kind : QuotaKind) (limit today : Nat) (s : MemState) (chat : Int)
    (hUnl : isUnlimitedMem s chat = false)
    (h : countTodayMem kind today s chat < limit) :
    checkAndIncrementMem kind limit today s chat =
      (true, withUsage kind
        (aset chat (today, countTodayMem kind today s chat + 1) (usageOf kind s)) s) := by
  cases kind <;>
    · unfold countTodayMem usageOf at h ⊢
      simp only [checkAndIncrementMem, checkAndIncrementUsageMem,
        checkAndIncrementImageUsageMem, hUnl, Bool.false_eq_true, if_neg,
        not_false_iff, stepQuota_allow _ _ _ _ h, withUsage]

/-! ### Frame facts about `_ensure_context` (in-memory branch) -/

theorem ensureContextMem_frame (dp : String) (s : MemState) (chat : Int) :
    (ensureContextMem dp s chat).2.prompts = s.prompts ∧
    (ensureContextMem dp s chat).2.dailyUsage = s.dailyUsage ∧
    (ensureContextMem dp s chat).2.dailyImageUsage = s.dailyImageUsage ∧
    (ensureContextMem dp s chat).2.unlimitedIds = s.unlimitedIds := by
  unfold ensureContextMem
  cases h : alookup chat s.histories <;> simp

/-! ### Lemmas about the relational quota core -/

theorem getOrCreateChat_found (s : DbState) (chat : Int) (c : DbChat)
    (h : findChat s chat = some c) : getOrCreateChat s chat = (c, s) := by
  unfold getOrCreateChat
  rw [h]

theorem firstUsage_inc (chat : Int) (t : Nat) :
    ∀ (u : List UsageRecord) (r : UsageRecord), firstUsage chat t u = some r →
      firstUsage chat t (incFirstUsage chat t u) = some ⟨r.chatId, r.date, r.count + 1⟩ := by
  intro u
  induction u with
  | nil => intro r h; simp [firstUsage] at h
  | cons x xs ih =>
    intro r h
    by_cases hp : (x.chatId == chat && decide (t ≤ x.date)) = true
    · rw [firstUsage, if_pos hp] at h
      injection h with h
      subst h
      rw [incFirstUsage, if_pos hp, firstUsage, if_pos (by simpa using hp)]
    · rw [firstUsage, if_neg hp] at h
      rw [incFirstUsage, if_neg hp, firstUsage, if_neg hp]
      exact ih r h

theorem firstUsage_inc_ne {c chat : Int} (h : c ≠ chat) (t : Nat) :
    ∀ (u : List UsageRecord),
      firstUsage c t (incFirstUsage chat t u) = firstUsage c t u := by
  intro u
  induction u with
  | nil => rfl
  | cons x xs ih =>
    by_cases hp : (x.chatId == chat && decide (t ≤ x.date)) = true
    · have hx : x.chatId = chat := by
        have := (Bool.and_eq_true _ _).mp hp
        exact beq_iff_eq.mp this.1
      have hcc : ¬ chat = c := fun hh => h (Eq.symm hh)
      have hc1 : ((⟨x.chatId, x.date, x.count + 1⟩ : UsageRecord).chatId == c
          && decide (t ≤ x.date)) = false := by
        simp [hx, hcc]
      have hc0 : (x.chatId == c && decide (t ≤ x.date)) = false := by
        simp [hx, hcc]
      rw [incFirstUsage, if_pos hp, firstUsage, firstUsage]
      simp only [hc1, hc0, Bool.false_eq_true, if_neg, not_false_iff]
    · rw [incFirstUsage, if_neg hp, firstUsage, firstUsage, ih]

theorem firstUsage_append_of_some (c : Int) (t : Nat) :
    ∀ (u v : List UsageRecord) (r : UsageRecord), firstUsage c t u = some r →
      firstUsage c t (u ++ v) = some r := by
  intro u
  induction u with
  | nil => intro v r h; simp [firstUsage] at h
  | cons x xs ih =>
    intro v r h
    by_cases hp : (x.chatId == c && decide (t ≤ x.date)) = true
    · rw [firstUsage, if_pos hp] at h
      rw [List.cons_append, firstUsage, if_pos hp]
      exact h
    · rw [firstUsage, if_neg hp] at h
      rw [List.cons_append, firstUsage, if_neg hp]
      exact ih v r h

theorem firstUsage_append_of_none (c : Int) (t : Nat) :
    ∀ (u v : List UsageRecord), firstUsage c t u = none →
      firstUsage c t (u ++ v) = firstUsage c t v := by
  intro u
  induction u with
  | nil => intro v _; rfl
  | cons x xs ih =>
    intro v h
    by_cases hp : (x.chatId == c && decide (t ≤ x.date)) = true
    · rw [firstUsage, if_pos hp] at h
      exact absurd h (by simp)
    · rw [firstUsage, if_neg hp] at h
      rw [List.cons_append, firstUsage, if_neg hp]
      exact ih v h

theorem firstUsage_of_all_past (chat : Int) (t : Nat) :
    ∀ (u : List UsageRecord), (∀ r ∈ u, r.chatId = chat → r.date < t) →
      firstUsage chat t u = none := by
  intro u
  induction u with
  | nil => intro _; rfl
  | cons x xs ih =>
    intro h
    have hp : (x.chatId == chat && decide (t ≤ x.date)) = false := by
      by_cases hx : x.chatId = chat
      · have := h x (List.mem_cons_self x xs) hx
        simp [hx, Nat.not_le.mpr this]
      · simp [hx]
    rw [firstUsage]
    simp only [hp, Bool.false_eq_true, if_neg, not_false_iff]
    exact ih (fun r hr => h r (List.mem_cons.mpr (Or.inr hr)))

theorem stepQuotaDb_deny (limit t : Nat) (chat : Int) (u : List UsageRecord)
    (h : limit ≤ todayCountRec t chat u) :
    stepQuotaDb limit t chat u = (false, u) := by
  unfold stepQuotaDb
  unfold todayCountRec at h
  cases hf : firstUsage chat t u with
  | none => rw [hf] at h; simp [h]
  | some r => rw [hf] at h; simp [h]

theorem stepQuotaDb_allow_eq (limit t : Nat) (chat : Int) (u : List UsageRecord)
    (h : todayCountRec t chat u < limit) :
    stepQuotaDb limit t chat u =
      (true, match firstUsage chat t u with
             | some _ => incFirstUsage chat t u
             | none => u ++ [⟨chat, t, 1⟩]) := by
  unfold stepQuotaDb
  cases hf : firstUsage chat t u with
  | none =>
    have h0 : ¬ limit ≤ 0 := Nat.not_le.mpr (by
      unfold todayCountRec at h; rw [hf] at h; simpa using h)
    simp [h0]
  | some r =>
    have h0 : ¬ limit ≤ r.count := Nat.not_le.mpr (by
      unfold todayCountRec at h; rw [hf] at h; simpa using h)
    simp [h0]

theorem stepQuotaDb_allow (limit t : Nat) (chat : Int) (u : List UsageRecord)
    (h : todayCountRec t chat u < limit) :
    (stepQuotaDb limit t chat u).1 = true ∧
    todayCountRec t chat (stepQuotaDb limit t chat u).2 = todayCountRec t chat u + 1 ∧
    (∀ c, c ≠ chat → todayCountRec t c (stepQuotaDb limit t chat u).2
        = todayCountRec t c u) := by
  cases hf : firstUsage chat t u with
  | none =>
    rw [stepQuotaDb_allow_eq limit t chat u h, hf]
    refine ⟨rfl, ?_, ?_⟩
    · unfold todayCountRec
      rw [firstUsage_append_of_none chat t u _ hf, hf]
      simp [firstUsage]
    · intro c hc
      have hcc : ¬ chat = c := fun hh => hc (Eq.symm hh)
      unfold todayCountRec
      cases hg : firstUsage c t u with
      | none =>
        rw [firstUsage_append_of_none c t u _ hg]
        simp [firstUsage, hcc]
      | some r => rw [firstUsage_append_of_some c t u _ r hg]
  | some r =>
    rw [stepQuotaDb_allow_eq limit t chat u h, hf]
    refine ⟨rfl, ?_, ?_⟩
    · unfold todayCountRec
      rw [firstUsage_inc chat t u r hf, hf]
    · intro c hc
      unfold todayCountRec
      rw [firstUsage_inc_ne hc t u]

/-! ## Claim theorems -/

/-- Claim C2: after every call of `_truncate_history` on a history whose
first element is the system turn, the result holds at most
`1 + 2 * MAX_HISTORY_TURNS` turns, the first turn is kept, and exactly the
oldest non-first turns are dropped: the result is the first turn followed
by the most recent `2 * MAX_HISTORY_TURNS` turns of the tail. -/
theorem c2_truncate_bound_and_retention (maxTurns : Nat) (hd : Turn) (tl : List Turn) :
    (truncateHistory maxTurns (hd :: tl)).length ≤ 1 + 2 * maxTurns ∧
    truncateHistory maxTurns (hd :: tl) = hd :: tl.drop (tl.length - 2 * maxTurns) := by
  refine ⟨?_, truncateHistory_cons maxTurns hd tl⟩
  rw [truncateHistory_cons]
  simp only [List.length_cons, List.length_drop]
  omega

/-- Claim C3 (amended): in the file backend, executing `setprompt` with
text `X` and immediately fetching the history yields exactly one system
turn with text `X`, with the stored prompt upserted to `X`.  In database
mode the prompt upsert and history reset are not atomic in effect: when
the chat already has a stored system message, the fetched history keeps
the old system text (see the counterexample). -/
theorem c3_setprompt_mem (dp : String) (s : MemState) (chat : Int) (x : String) :
    (ensureContextMem dp (setpromptCmdMem dp s chat x) chat).1 = [⟨Role.system, x⟩] ∧
    alookup chat (setpromptCmdMem dp s chat x).prompts = some x := by
  unfold setpromptCmdMem resetChatHistoryMem
  simp [ensureContextMem, alookup_aset_self]

/-- Claim C3 counterexample: in database mode, `setprompt "new"` followed
by an immediate history fetch yields a single system turn that still has
the OLD text, so the fetch observes the new prompt with the old system
turn text. -/
theorem c3_counterexample :
    (ensureContextDb "default" 10 (setpromptCmdDb "default" 10 c3State 1 "new") 1).1
        = [⟨Role.system, "old"⟩] ∧
    (ensureContextDb "default" 10 (setpromptCmdDb "default" 10 c3State 1 "new") 1).1
        ≠ [⟨Role.system, "new"⟩] ∧
    alookup 1 (setpromptCmdDb "default" 10 c3State 1 "new").db.systemPrompts
        = some "new" := by
  refine ⟨by decide, by decide, by decide⟩

/-- Claim C4 (amended): in the file backend, the `reset` command deletes
the custom prompt and the next fetch yields exactly one system turn with
the process-wide default text.  In database mode the custom prompt is not
deleted from the database and the next fetch keeps the custom text (see
the counterexample). -/
theorem c4_reset_mem (dp : String) (s : MemState) (chat : Int) :
    alookup chat (resetCmdMem dp s chat).prompts = none ∧
    (ensureContextMem dp (resetCmdMem dp s chat) chat).1 = [⟨Role.system, dp⟩] := by
  unfold resetCmdMem resetChatHistoryMem
  simp [ensureContextMem, alookup_aerase_self, alookup_aset_self]

/-- Claim C4 counterexample: in database mode, `reset` on a chat with a
custom prompt keeps the custom `SystemPrompt` row and the next fetch
yields the custom text, not the process-wide default. -/
theorem c4_counterexample :
    (ensureContextDb "default" 10 (resetCmdDb "default" 10 c4State 1) 1).1
        = [⟨Role.system, "custom"⟩] ∧
    (ensureContextDb "default" 10 (resetCmdDb "default" 10 c4State 1) 1).1
        ≠ [⟨Role.system, "default"⟩] ∧
    alookup 1 (resetCmdDb "default" 10 c4State 1).db.systemPrompts = some "custom" := by
  refine ⟨by decide, by decide, by decide⟩

/-- Claim C1 (amended): for every non-whitelisted chat and every quota
kind, the check-and-increment operation is atomic in effect.  In the file
backend this holds unconditionally: at or above the limit it returns
false and leaves the whole state unchanged; strictly below, it returns
true, today's counter for the chat grows by exactly one, and histories,
prompts, the whitelist, the other kind's counters and every other chat's
counter are unchanged.  In the database backend the same holds whenever
the chat already has a chat row (always the case on a denial when the
configured limit is at least 1); for a chat without a row and a limit of
0, the denial additionally registers and commits the chat row (see the
counterexample). -/
theorem c1_check_and_increment :
    (∀ (kind : QuotaKind) (limit today : Nat) (s : MemState) (chat : Int),
      isUnlimitedMem s chat = false →
      (limit ≤ countTodayMem kind today s chat →
        checkAndIncrementMem kind limit today s chat = (false, s)) ∧
      (countTodayMem kind today s chat < limit →
        (checkAndIncrementMem kind limit today s chat).1 = true ∧
        countTodayMem kind today (checkAndIncrementMem kind limit today s chat).2 chat
          = countTodayMem kind today s chat + 1 ∧
        (checkAndIncrementMem kind limit today s chat).2.histories = s.histories ∧
        (checkAndIncrementMem kind limit today s chat).2.prompts = s.prompts ∧
        (checkAndIncrementMem kind limit today s chat).2.unlimitedIds = s.unlimitedIds ∧
        (∀ k2, k2 ≠ kind →
          usageOf k2 (checkAndIncrementMem kind limit today s chat).2 = usageOf k2 s) ∧
        (∀ c2, c2 ≠ chat →
          countTodayMem kind today (checkAndIncrementMem kind limit today s chat).2 c2
            = countTodayMem kind today s c2))) ∧
    (∀ (kind : QuotaKind) (limit todayStart : Nat) (s : DbState) (chat : Int) (c : DbChat),
      findChat s chat = some c → c.isUnlimited = false →
      (limit ≤ todayCountDb kind todayStart s chat →
        checkAndIncrementDb kind s chat todayStart limit = (false, s)) ∧
      (todayCountDb kind todayStart s chat < limit →
        (checkAndIncrementDb kind s chat todayStart limit).1 = true ∧
        todayCountDb kind todayStart (checkAndIncrementDb kind s chat todayStart limit).2 chat
          = todayCountDb kind todayStart s chat + 1 ∧
        (checkAndIncrementDb kind s chat todayStart limit).2.chats = s.chats ∧
        (checkAndIncrementDb kind s chat todayStart limit).2.systemPrompts = s.systemPrompts ∧
        (checkAndIncrementDb kind s chat todayStart limit).2.messages = s.messages ∧
        (∀ k2, k2 ≠ kind →
          usageRecordsOf k2 (checkAndIncrementDb kind s chat todayStart limit).2
            = usageRecordsOf k2 s) ∧
        (∀ c2, c2 ≠ chat →
          todayCountDb kind todayStart (checkAndIncrementDb kind s chat todayStart limit).2 c2
            = todayCountDb kind todayStart s c2))) := by
  constructor
  · intro kind limit today s chat hUnl
    refine ⟨fun h => checkMem_deny kind limit today s chat hUnl h, fun h => ?_⟩
    rw [checkMem_allow kind limit today s chat hUnl h]
    cases kind with
    | text =>
      refine ⟨rfl, ?_, rfl, rfl, rfl, ?_, ?_⟩
      · unfold countTodayMem usageOf withUsage
        exact todayCount_aset_self today chat _ s.dailyUsage
      · intro k2 hk2
        cases k2 with
        | text => exact absurd rfl hk2
        | image => rfl
      · intro c2 hc2
        unfold countTodayMem usageOf withUsage
        exact todayCount_aset_ne today hc2 _ s.dailyUsage
    | image =>
      refine ⟨rfl, ?_, rfl, rfl, rfl, ?_, ?_⟩
      · unfold countTodayMem usageOf withUsage
        exact todayCount_aset_self today chat _ s.dailyImageUsage
      · intro k2 hk2
        cases k2 with
        | text => rfl
        | image => exact absurd rfl hk2
      · intro c2 hc2
        unfold countTodayMem usageOf withUsage
        exact todayCount_aset_ne today hc2 _ s.dailyImageUsage
  · intro kind limit todayStart s chat c hc hu
    constructor
    · intro h
      cases kind with
      | text =>
        unfold todayCountDb usageRecordsOf at h
        unfold checkAndIncrementDb checkAndIncrementUsageDb
        rw [getOrCreateChat_found s chat c hc]
        simp [hu, stepQuotaDb_deny limit todayStart chat s.usageRecords h]
      | image =>
        unfold todayCountDb usageRecordsOf at h
        unfold checkAndIncrementDb checkAndIncrementImageUsageDb
        rw [getOrCreateChat_found s chat c hc]
        simp [hu, stepQuotaDb_deny limit todayStart chat s.imageUsageRecords h]
    · intro h
      cases kind with
      | text =>
        unfold todayCountDb usageRecordsOf at h
        have hstep := stepQuotaDb_allow limit todayStart chat s.usageRecords h
        unfold checkAndIncrementDb checkAndIncrementUsageDb
        rw [getOrCreateChat_found s chat c hc]
        simp only [hu, Bool.false_eq_true, if_neg, not_false_iff]
        refine ⟨hstep.1, ?_, trivial, trivial, trivial, ?_, ?_⟩
        · unfold todayCountDb usageRecordsOf
          exact hstep.2.1
        · intro k2 hk2
          cases k2 with
          | text => exact absurd rfl hk2
          | image => rfl
        · intro c2 hc2
          unfold todayCountDb usageRecordsOf
          exact hstep.2.2 c2 hc2
      | image =>
        unfold todayCountDb usageRecordsOf at h
        have hstep := stepQuotaDb_allow limit todayStart chat s.imageUsageRecords h
        unfold checkAndIncrementDb checkAndIncrementImageUsageDb
        rw [getOrCreateChat_found s chat c hc]
        simp only [hu, Bool.false_eq_true, if_neg, not_false_iff]
        refine ⟨hstep.1, ?_, trivial, trivial, trivial, ?_, ?_⟩
        · unfold todayCountDb usageRecordsOf
          exact hstep.2.1
        · intro k2 hk2
          cases k2 with
          | text => rfl
          | image => exact absurd rfl hk2
        · intro c2 hc2
          unfold todayCountDb usageRecordsOf
          exact hstep.2.2 c2 hc2

/-- Claim C1 witness: a concrete non-whitelisted chat below the limit. -/
theorem c1_witness :
    isUnlimitedMem ⟨[], [], [(1, (7, 3))], [], []⟩ 1 = false ∧
    countTodayMem QuotaKind.text 7 ⟨[], [], [(1, (7, 3))], [], []⟩ 1 < 15 ∧
    countTodayMem QuotaKind.text 7
      (checkAndIncrementMem QuotaKind.text 15 7 ⟨[], [], [(1, (7, 3))], [], []⟩ 1).2 1
        = countTodayMem QuotaKind.text 7 ⟨[], [], [(1, (7, 3))], [], []⟩ 1 + 1 := by
  refine ⟨by decide, by decide, ?_⟩
  exact ((c1_check_and_increment.1 QuotaKind.text 15 7 ⟨[], [], [(1, (7, 3))], [], []⟩ 1
    (by decide)).2 (by decide)).2.1

/-- Claim C1 counterexample: in the database backend with a configured
limit of 0, a denial for a never-seen chat is not mutation-free — the
chat row is created and committed by `get_or_create_chat`. -/
theorem c1_counterexample :
    (checkAndIncrementUsageDb ⟨[], [], [], [], []⟩ 7 100 0).1 = false ∧
    (checkAndIncrementUsageDb ⟨[], [], [], [], []⟩ 7 100 0).2
      ≠ (⟨[], [], [], [], []⟩ : DbState) := by
  refine ⟨by decide, by decide⟩

/-- Claim C5: a quota counter stored with a past day is treated as zero on
the next check, for both backends and both quota kinds: with any stored
past-dated counter (in particular yesterday's counter at the limit) and a
positive limit, the first check of the new day succeeds and the stored
counter becomes exactly one with today's date; the boundary is the
rollover of the calendar day the code reads (`date.today()` in the file
backend, `utcnow().date()` in the database backend), not a rolling
24-hour window. -/
theorem c5_day_rollover :
    (∀ (kind : QuotaKind) (limit today d cnt : Nat) (s : MemState) (chat : Int),
      isUnlimitedMem s chat = false →
      alookup chat (usageOf kind s) = some (d, cnt) →
      d ≠ today → 1 ≤ limit →
      checkAndIncrementMem kind limit today s chat =
        (true, withUsage kind (aset chat (today, 1) (usageOf kind s)) s)) ∧
    (∀ (kind : QuotaKind) (limit todayStart : Nat) (s : DbState) (chat : Int) (c : DbChat),
      findChat s chat = some c → c.isUnlimited = false →
      (∀ r ∈ usageRecordsOf kind s, r.chatId = chat → r.date < todayStart) →
      1 ≤ limit →
      checkAndIncrementDb kind s chat todayStart limit =
        (true, withUsageRecords kind
          (usageRecordsOf kind s ++ [⟨chat, todayStart, 1⟩]) s)) := by
  constructor
  · intro kind limit today d cnt s chat hUnl hl hd hlim
    have hcnt : countTodayMem kind today s chat = 0 := by
      unfold countTodayMem todayCount
      rw [hl]
      simp [fun hh => hd hh]
    have hall := checkMem_allow kind limit today s chat hUnl (by rw [hcnt]; omega)
    rw [hcnt] at hall
    simpa using hall
  · intro kind limit t s chat c hc hu hpast hlim
    have hnone : firstUsage chat t (usageRecordsOf kind s) = none :=
      firstUsage_of_all_past chat t _ hpast
    have hpos : ¬ limit ≤ 0 := by omega
    cases kind with
    | text =>
      unfold usageRecordsOf at hnone
      unfold checkAndIncrementDb checkAndIncrementUsageDb
      rw [getOrCreateChat_found s chat c hc]
      have hstep : stepQuotaDb limit t chat s.usageRecords =
          (true, s.usageRecords ++ [⟨chat, t, 1⟩]) := by
        unfold stepQuotaDb
        rw [hnone, if_neg hpos]
      simp [hu, hstep, withUsageRecords, usageRecordsOf]
    | image =>
      unfold usageRecordsOf at hnone
      unfold checkAndIncrementDb checkAndIncrementImageUsageDb
      rw [getOrCreateChat_found s chat c hc]
      have hstep : stepQuotaDb limit t chat s.imageUsageRecords =
          (true, s.imageUsageRecords ++ [⟨chat, t, 1⟩]) := by
        unfold stepQuotaDb
        rw [hnone, if_neg hpos]
      simp [hu, hstep, withUsageRecords, usageRecordsOf]

/-- Claim C5 witness: yesterday (day 3) the counter of chat 1 was at the
limit 15; the first check on day 4 succeeds and the counter becomes one
with day 4. -/
theorem c5_witness :
    checkAndIncrementMem QuotaKind.text 15 4 ⟨[], [], [(1, (3, 15))], [], []⟩ 1 =
      (true, withUsage QuotaKind.text
        (aset 1 (4, 1) (usageOf QuotaKind.text ⟨[], [], [(1, (3, 15))], [], []⟩))
        ⟨[], [], [(1, (3, 15))], [], []⟩) :=
  c5_day_rollover.1 QuotaKind.text 15 4 3 15 ⟨[], [], [(1, (3, 15))], [], []⟩ 1
    (by decide) (by decide) (by decide) (by decide)

theorem askCmdMem_unlimited_frame (dp : String) (maxTurns limit maxQLen today : Nat)
    (pr : Except String String) (s : MemState) (chat : Int) (q : String)
    (h : isUnlimitedMem s chat = true) :
    (askCmdMem dp maxTurns limit maxQLen today pr s chat q).2.dailyUsage = s.dailyUsage ∧
    (askCmdMem dp maxTurns limit maxQLen today pr s chat q).2.dailyImageUsage
      = s.dailyImageUsage ∧
    (askCmdMem dp maxTurns limit maxQLen today pr s chat q).2.unlimitedIds
      = s.unlimitedIds := by
  have hc : checkAndIncrementUsageMem limit today s chat = (true, s) := by
    unfold checkAndIncrementUsageMem
    simp [h]
  have hf := ensureContextMem_frame dp s chat
  unfold askCmdMem
  rw [hc]
  by_cases h1 : q = ""
  · simp [h1]
  · by_cases h2 : maxQLen < q.length
    · simp [h1, h2]
    · cases pr with
      | error e => simp [h1, h2, hf.2.1, hf.2.2.1, hf.2.2.2]
      | ok a => simp [h1, h2, hf.2.1, hf.2.2.1, hf.2.2.2]

theorem runAsksMem_unlimited_frame (dp : String) (maxTurns limit maxQLen today : Nat)
    (chat : Int) :
    ∀ (reqs : List (String × Except String String)) (s : MemState),
      isUnlimitedMem s chat = true →
      (runAsksMem dp maxTurns limit maxQLen today chat reqs s).dailyUsage = s.dailyUsage ∧
      (runAsksMem dp maxTurns limit maxQLen today chat reqs s).dailyImageUsage
        = s.dailyImageUsage ∧
      (runAsksMem dp maxTurns limit maxQLen today chat reqs s).unlimitedIds
        = s.unlimitedIds := by
  intro reqs
  induction reqs with
  | nil => intro s _; exact ⟨rfl, rfl, rfl⟩
  | cons r rest ih =>
    intro s h
    have hstep := askCmdMem_unlimited_frame dp maxTurns limit maxQLen today r.2 s chat r.1 h
    have hUnl2 : isUnlimitedMem
        (askCmdMem dp maxTurns limit maxQLen today r.2 s chat r.1).2 chat = true := by
      unfold isUnlimitedMem
      rw [hstep.2.2]
      exact h
    have heq : runAsksMem dp maxTurns limit maxQLen today chat (r :: rest) s =
        runAsksMem dp maxTurns limit maxQLen today chat rest
          (askCmdMem dp maxTurns limit maxQLen today r.2 s chat r.1).2 := rfl
    rw [heq]
    have h2 := ih _ hUnl2
    exact ⟨h2.1.trans hstep.1, h2.2.1.trans hstep.2.1, h2.2.2.trans hstep.2.2⟩

theorem imageCmdMem_unlimited_frame (limit today : Nat) (ok : Bool)
    (s : MemState) (chat : Int) (d : String)
    (h : isUnlimitedMem s chat = true) :
    (imageCmdMem limit today ok s chat d).2.dailyUsage = s.dailyUsage ∧
    (imageCmdMem limit today ok s chat d).2.dailyImageUsage = s.dailyImageUsage ∧
    (imageCmdMem limit today ok s chat d).2.unlimitedIds = s.unlimitedIds := by
  have hc : checkAndIncrementImageUsageMem limit today s chat = (true, s) := by
    unfold checkAndIncrementImageUsageMem
    simp [h]
  unfold imageCmdMem
  by_cases h1 : d = ""
  · simp [h1]
  · simp only [h1, if_neg, hc]
    cases ok <;> simp [h1, hc]

theorem runImagesMem_unlimited_frame (limit today : Nat) (chat : Int) :
    ∀ (reqs : List (String × Bool)) (s : MemState),
      isUnlimitedMem s chat = true →
      (runImagesMem limit today chat reqs s).dailyUsage = s.dailyUsage ∧
      (runImagesMem limit today chat reqs s).dailyImageUsage = s.dailyImageUsage ∧
      (runImagesMem limit today chat reqs s).unlimitedIds = s.unlimitedIds := by
  intro reqs
  induction reqs with
  | nil => intro s _; exact ⟨rfl, rfl, rfl⟩
  | cons r rest ih =>
    intro s h
    have hstep := imageCmdMem_unlimited_frame limit today r.2 s chat r.1 h
    have hUnl2 : isUnlimitedMem (imageCmdMem limit today r.2 s chat r.1).2 chat = true := by
      unfold isUnlimitedMem
      rw [hstep.2.2]
      exact h
    have heq : runImagesMem limit today chat (r :: rest) s =
        runImagesMem limit today chat rest (imageCmdMem limit today r.2 s chat r.1).2 := rfl
    rw [heq]
    have h2 := ih _ hUnl2
    exact ⟨h2.1.trans hstep.1, h2.2.1.trans hstep.2.1, h2.2.2.trans hstep.2.2⟩

theorem checkDb_unlimited (kind : QuotaKind) (limit t : Nat) (s : DbState) (chat : Int)
    (c : DbChat) (hc : findChat s chat = some c) (hu : c.isUnlimited = true) :
    checkAndIncrementDb kind s chat t limit = (true, s) := by
  cases kind with
  | text =>
    unfold checkAndIncrementDb checkAndIncrementUsageDb
    rw [getOrCreateChat_found s chat c hc]
    simp [hu]
  | image =>
    unfold checkAndIncrementDb checkAndIncrementImageUsageDb
    rw [getOrCreateChat_found s chat c hc]
    simp [hu]

/-- Claim C6 (amended): for every whitelisted chat and every quota kind,
the check-and-increment of both backends returns true and leaves the
state fully unchanged, and in the file backend any number of `/ask` and
`/image` requests leaves both stored usage dictionaries unchanged.  In
database mode, however, each successful `/ask` additionally inserts a
usage statistics record for the chat even when it is whitelisted (see
the counterexample). -/
theorem c6_whitelist_no_mutation :
    (∀ (kind : QuotaKind) (limit today : Nat) (s : MemState) (chat : Int),
      isUnlimitedMem s chat = true →
      checkAndIncrementMem kind limit today s chat = (true, s)) ∧
    (∀ (kind : QuotaKind) (limit todayStart : Nat) (s : DbState) (chat : Int) (c : DbChat),
      findChat s chat = some c → c.isUnlimited = true →
      checkAndIncrementDb kind s chat todayStart limit = (true, s)) ∧
    (∀ (dp : String) (maxTurns limit maxQLen today : Nat) (chat : Int)
        (reqs : List (String × Except String String)) (s : MemState),
      isUnlimitedMem s chat = true →
      (runAsksMem dp maxTurns limit maxQLen today chat reqs s).dailyUsage = s.dailyUsage ∧
      (runAsksMem dp maxTurns limit maxQLen today chat reqs s).dailyImageUsage
        = s.dailyImageUsage) ∧
    (∀ (limit today : Nat) (chat : Int) (reqs : List (String × Bool)) (s : MemState),
      isUnlimitedMem s chat = true →
      (runImagesMem limit today chat reqs s).dailyUsage = s.dailyUsage ∧
      (runImagesMem limit today chat reqs s).dailyImageUsage = s.dailyImageUsage) := by
  refine ⟨checkMem_unlimited, checkDb_unlimited, ?_, ?_⟩
  · intro dp maxTurns limit maxQLen today chat reqs s h
    have := runAsksMem_unlimited_frame dp maxTurns limit maxQLen today chat reqs s h
    exact ⟨this.1, this.2.1⟩
  · intro limit today chat reqs s h
    have := runImagesMem_unlimited_frame limit today chat reqs s h
    exact ⟨this.1, this.2.1⟩

/-- Claim C6 witness: a whitelisted chat issuing several requests keeps
its usage dictionaries unchanged in the file backend. -/
theorem c6_witness :
    isUnlimitedMem ⟨[], [], [], [], [1]⟩ 1 = true ∧
    (runAsksMem "d" 10 15 4000 0 1 [("hi", Except.ok "a"), ("yo", Except.error "x")]
      ⟨[], [], [], [], [1]⟩).dailyUsage = [] := by
  refine ⟨by decide, ?_⟩
  exact (c6_whitelist_no_mutation.2.2.1 "d" 10 15 4000 0 1
    [("hi", Except.ok "a"), ("yo", Except.error "x")] ⟨[], [], [], [], [1]⟩ (by decide)).1

/-- Claim C6 counterexample: in database mode a successful `/ask` from a
whitelisted chat inserts a usage record, so the stored usage counters
are not identical before and after. -/
theorem c6_counterexample :
    c6State.db.usageRecords = [] ∧
    (askCmdDb "d" 10 15 4000 100 105 (Except.ok "a") c6State 3 "hello").2.db.usageRecords
      = [⟨3, 105, 1⟩] := by
  refine ⟨by decide, by decide⟩

/-- Claim C7 (amended): a storage failure during the quota check is caught
and logged inside `_check_and_increment_usage` and is never reported to
the caller: the check falls back to the in-memory counters, leaving the
database untouched and returning an ordinary allow/deny answer.  In
particular, when the in-memory counter for the chat is absent (as it is
when the database is the active backend) and the limit is positive, the
check passes — even when the database counter is at the limit — instead
of surfacing a failure. -/
theorem c7_storage_failure :
    (∀ (limit today todayStart : Nat) (st : SysState) (chat : Int),
      (checkAndIncrementUsageFull true true limit today todayStart st chat).2.db = st.db ∧
      (checkAndIncrementUsageFull true true limit today todayStart st chat).1
        = (checkAndIncrementUsageMem limit today st.mem chat).1) ∧
    (∀ (limit today todayStart : Nat) (st : SysState) (chat : Int),
      alookup chat st.mem.dailyUsage = none →
      isUnlimitedMem st.mem chat = false →
      1 ≤ limit →
      (checkAndIncrementUsageFull true true limit today todayStart st chat).1 = true) := by
  constructor
  · intro limit today todayStart st chat
    unfold checkAndIncrementUsageFull
    simp
  · intro limit today todayStart st chat hnone hUnl hlim
    have hcnt : countTodayMem QuotaKind.text today st.mem chat = 0 := by
      unfold countTodayMem todayCount usageOf
      rw [hnone]
    have hall : checkAndIncrementUsageMem limit today st.mem chat =
        (true, withUsage QuotaKind.text
          (aset chat (today, countTodayMem QuotaKind.text today st.mem chat + 1)
            (usageOf QuotaKind.text st.mem)) st.mem) :=
      checkMem_allow QuotaKind.text limit today st.mem chat hUnl (by rw [hcnt]; omega)
    unfold checkAndIncrementUsageFull
    simp [hall]

/-- Claim C7 witness: with empty in-memory counters, a storage failure
makes the quota check return an ordinary allow. -/
theorem c7_witness :
    (checkAndIncrementUsageFull true true 15 5 100 c7State 1).1 = true :=
  c7_storage_failure.2 15 5 100 c7State 1 (by decide) (by decide) (by decide)

/-- Claim C7 counterexample: the database counter of chat 1 is at the
limit 15; under a storage failure the quota check is not reported as a
failure and does not deny — it silently passes via the in-memory
fallback, although the working database check would deny. -/
theorem c7_counterexample :
    (checkAndIncrementUsageDb c7State.db 1 100 15).1 = false ∧
    (checkAndIncrementUsageFull true true 15 5 100 c7State 1).1 = true ∧
    (checkAndIncrementUsageFull true true 15 5 100 c7State 1).2.mem.dailyUsage
      = [(1, (5, 1))] := by
  refine ⟨by decide, by decide, by decide⟩

/-- Claim C8: in the file backend, when the provider call of `/ask` fails
after the quota was consumed (state `s1`) and the user turn was appended,
the handler replies with an error, the stored history is exactly the
fetched context plus the user turn (truncated) — so no assistant turn is
appended and the user turn remains — and the consumed quota unit is not
refunded: the counter keeps its incremented value. -/
theorem c8_provider_failure (dp : String) (maxTurns dailyLimit maxQLen today : Nat)
    (e : String) (s s1 : MemState) (chat : Int) (q : String)
    (hM : 1 ≤ maxTurns)
    (hUnl : isUnlimitedMem s chat = false)
    (hAllow : checkAndIncrementUsageMem dailyLimit today s chat = (true, s1))
    (hq : q ≠ "") (hlen : q.length ≤ maxQLen) :
    (askCmdMem dp maxTurns dailyLimit maxQLen today (Except.error e) s chat q).1
        = AskOutcome.providerError ∧
    alookup chat
        (askCmdMem dp maxTurns dailyLimit maxQLen today (Except.error e) s chat q).2.histories
      = some (truncateHistory maxTurns
          ((ensureContextMem dp s1 chat).1 ++ [⟨Role.user, q⟩])) ∧
    Turn.mk Role.user q ∈ truncateHistory maxTurns
        ((ensureContextMem dp s1 chat).1 ++ [⟨Role.user, q⟩]) ∧
    (askCmdMem dp maxTurns dailyLimit maxQLen today (Except.error e) s chat q).2.dailyUsage
        = s1.dailyUsage ∧
    countTodayMem QuotaKind.text today
        (askCmdMem dp maxTurns dailyLimit maxQLen today (Except.error e) s chat q).2 chat
      = countTodayMem QuotaKind.text today s chat + 1 := by
  have hUnder : countTodayMem QuotaKind.text today s chat < dailyLimit := by
    by_contra hge
    push_neg at hge
    have hd : checkAndIncrementUsageMem dailyLimit today s chat = (false, s) :=
      checkMem_deny QuotaKind.text dailyLimit today s chat hUnl hge
    rw [hd] at hAllow
    exact absurd (congrArg Prod.fst hAllow) (by simp)
  have hform : checkAndIncrementUsageMem dailyLimit today s chat =
      (true, withUsage QuotaKind.text
        (aset chat (today, countTodayMem QuotaKind.text today s chat + 1)
          (usageOf QuotaKind.text s)) s) :=
    checkMem_allow QuotaKind.text dailyLimit today s chat hUnl hUnder
  have hs1 : s1 = withUsage QuotaKind.text
      (aset chat (today, countTodayMem QuotaKind.text today s chat + 1)
        (usageOf QuotaKind.text s)) s :=
    congrArg Prod.snd (hAllow.symm.trans hform)
  have hf := ensureContextMem_frame dp s1 chat
  have hrun : askCmdMem dp maxTurns dailyLimit maxQLen today (Except.error e) s chat q =
      (AskOutcome.providerError,
       { (ensureContextMem dp s1 chat).2 with
         histories := aset chat
           (truncateHistory maxTurns ((ensureContextMem dp s1 chat).1 ++ [⟨Role.user, q⟩]))
           (ensureContextMem dp s1 chat).2.histories }) := by
    unfold askCmdMem
    rw [hAllow]
    simp [hq, Nat.not_lt.mpr hlen]
  refine ⟨by rw [hrun], ?_, truncate_keeps_appended maxTurns hM _ _, ?_, ?_⟩
  · rw [hrun]
    exact alookup_aset_self chat _ _
  · rw [hrun]
    exact hf.2.1
  · rw [hrun]
    show countTodayMem QuotaKind.text today _ chat = _
    unfold countTodayMem usageOf
    have hdu : ({ (ensureContextMem dp s1 chat).2 with
        histories := aset chat
          (truncateHistory maxTurns ((ensureContextMem dp s1 chat).1 ++ [⟨Role.user, q⟩]))
          (ensureContextMem dp s1 chat).2.histories } : MemState).dailyUsage
        = s1.dailyUsage := hf.2.1
    rw [hdu, hs1]
    unfold withUsage usageOf
    exact todayCount_aset_self today chat _ s.dailyUsage

/-- Claim C8 witness: a concrete failed provider call after a consumed
quota unit. -/
theorem c8_witness :
    (askCmdMem "d" 10 15 4000 0 (Except.error "boom") ⟨[], [], [], [], []⟩ 1 "hi").1
      = AskOutcome.providerError ∧
    countTodayMem QuotaKind.text 0
      (askCmdMem "d" 10 15 4000 0 (Except.error "boom") ⟨[], [], [], [], []⟩ 1 "hi").2 1
      = countTodayMem QuotaKind.text 0 ⟨[], [], [], [], []⟩ 1 + 1 := by
  have h := c8_provider_failure "d" 10 15 4000 0 "boom" ⟨[], [], [], [], []⟩
    ⟨[], [], [(1, (0, 1))], [], []⟩ 1 "hi" (by decide) (by decide) (by decide)
    (by decide) (by decide)
  exact ⟨h.1, h.2.2.2.2⟩

theorem askCmdMem_dailyUsage (dp : String) (maxTurns limit maxQLen today : Nat)
    (pr : Except String String) (s : MemState) (chat : Int) (q : String) :
    (askCmdMem dp maxTurns limit maxQLen today pr s chat q).2.dailyUsage
      = (checkAndIncrementUsageMem limit today s chat).2.dailyUsage := by
  unfold askCmdMem
  cases hr : checkAndIncrementUsageMem limit today s chat with
  | mk b s1 =>
    cases b with
    | false => simp
    | true =>
      by_cases h1 : q = ""
      · simp [h1]
      · by_cases h2 : maxQLen < q.length
        · simp [h1, h2]
        · cases pr with
          | error e => simp [h1, h2, (ensureContextMem_frame dp s1 chat).2.1]
          | ok a => simp [h1, h2, (ensureContextMem_frame dp s1 chat).2.1]

theorem checkUsageMem_dailyUsage_cases (limit today : Nat) (s : MemState) (chat : Int) :
    (checkAndIncrementUsageMem limit today s chat).2.dailyUsage = s.dailyUsage ∨
    ∃ v, (checkAndIncrementUsageMem limit today s chat).2.dailyUsage
        = aset chat v s.dailyUsage := by
  by_cases hu : isUnlimitedMem s chat = true
  · left
    simp [checkAndIncrementUsageMem, hu]
  · have hu2 : isUnlimitedMem s chat = false := by
      cases h : isUnlimitedMem s chat
      · rfl
      · exact absurd h hu
    have heq : checkAndIncrementUsageMem limit today s chat =
        ((stepQuota limit today chat s.dailyUsage).1,
         { s with dailyUsage := (stepQuota limit today chat s.dailyUsage).2 }) := by
      unfold checkAndIncrementUsageMem
      simp [hu2]
    rw [heq, stepQuota_eq]
    by_cases hl : limit ≤ todayCount today chat s.dailyUsage
    · left
      simp [hl]
    · right
      refine ⟨(today, todayCount today chat s.dailyUsage + 1), ?_⟩
      simp [hl]

/-- Claim C9 (amended): in the file backend the usage dictionary keeps at
most one counter entry per chat (hence per chat, kind and date), and
`/ask` preserves that invariant, every read and increment going through
that single entry.  In database mode the uniqueness claim fails: the
check-and-increment maintains one counter row, but each successful
`/ask` appends an additional `usage_records` row for the same chat and
day, and the quota read observes only the first matching row (see the
counterexample). -/
theorem c9_counter_uniqueness (dp : String) (maxTurns dailyLimit maxQLen today : Nat)
    (pr : Except String String) (s : MemState) (chat : Int) (q : String)
    (h : (s.dailyUsage.map Prod.fst).Nodup) :
    ((askCmdMem dp maxTurns dailyLimit maxQLen today pr s chat q).2.dailyUsage.map
        Prod.fst).Nodup ∧
    ∀ c, ((askCmdMem dp maxTurns dailyLimit maxQLen today pr s chat q).2.dailyUsage.filter
        (fun p => p.1 == c)).length ≤ 1 := by
  rw [askCmdMem_dailyUsage dp maxTurns dailyLimit maxQLen today pr s chat q]
  rcases checkUsageMem_dailyUsage_cases dailyLimit today s chat with hcase | ⟨v, hcase⟩
  · rw [hcase]
    exact ⟨h, fun c => nodup_filter_length_le_one c _ h⟩
  · rw [hcase]
    have h2 := nodup_map_fst_aset chat v s.dailyUsage h
    exact ⟨h2, fun c => nodup_filter_length_le_one c _ h2⟩

/-- Claim C9 witness: a concrete `/ask` run preserving at most one counter
entry per chat. -/
theorem c9_witness :
    ((askCmdMem "d" 10 15 4000 0 (Except.ok "a")
        ⟨[], [], [(1, (0, 3)), (2, (0, 5))], [], []⟩ 1 "hi").2.dailyUsage.filter
      (fun p => p.1 == 1)).length ≤ 1 :=
  (c9_counter_uniqueness "d" 10 15 4000 0 (Except.ok "a")
    ⟨[], [], [(1, (0, 3)), (2, (0, 5))], [], []⟩ 1 "hi" (by decide)).2 1

/-- Claim C9 counterexample: in database mode a single successful `/ask`
leaves two `usage_records` rows for the same chat and day (one from the
check-and-increment, one from `add_usage_record`), so the stored state
does not contain at most one counter record per chat, kind and date. -/
theorem c9_counterexample :
    ((askCmdDb "d" 10 15 4000 100 105 (Except.ok "a") c9State 5 "q").2.db.usageRecords.filter
      (fun u => u.chatId == 5 && decide (100 ≤ u.date) && decide (u.date < 200))).length
      = 2 := by
  decide

/-- Claim C10: in the file backend, for a non-whitelisted chat under its
daily text limit, an `/ask` whose (post-fallback) question is empty or
longer than `MAX_QUESTION_LEN` is rejected with a validation reply, yet
one unit of text quota is consumed: the quota check-and-increment runs
before the validation, so today's counter grows by one while the
conversation history (and prompts) stay unchanged. -/
theorem c10_invalid_input_quota (dp : String) (maxTurns dailyLimit maxQLen today : Nat)
    (pr : Except String String) (s : MemState) (chat : Int) (q : String)
    (hUnl : isUnlimitedMem s chat = false)
    (hUnder : countTodayMem QuotaKind.text today s chat < dailyLimit)
    (hBad : q = "" ∨ maxQLen < q.length) :
    ((askCmdMem dp maxTurns dailyLimit maxQLen today pr s chat q).1 = AskOutcome.usageHint ∨
     (askCmdMem dp maxTurns dailyLimit maxQLen today pr s chat q).1 = AskOutcome.tooLong) ∧
    (askCmdMem dp maxTurns dailyLimit maxQLen today pr s chat q).2.histories = s.histories ∧
    (askCmdMem dp maxTurns dailyLimit maxQLen today pr s chat q).2.prompts = s.prompts ∧
    countTodayMem QuotaKind.text today
        (askCmdMem dp maxTurns dailyLimit maxQLen today pr s chat q).2 chat
      = countTodayMem QuotaKind.text today s chat + 1 := by
  have hform : checkAndIncrementUsageMem dailyLimit today s chat =
      (true, withUsage QuotaKind.text
        (aset chat (today, countTodayMem QuotaKind.text today s chat + 1)
          (usageOf QuotaKind.text s)) s) :=
    checkMem_allow QuotaKind.text dailyLimit today s chat hUnl hUnder
  have hcnt : countTodayMem QuotaKind.text today
      (withUsage QuotaKind.text
        (aset chat (today, countTodayMem QuotaKind.text today s chat + 1)
          (usageOf QuotaKind.text s)) s) chat
      = countTodayMem QuotaKind.text today s chat + 1 := by
    unfold countTodayMem usageOf withUsage
    exact todayCount_aset_self today chat _ s.dailyUsage
  by_cases hq : q = ""
  · have hrun : askCmdMem dp maxTurns dailyLimit maxQLen today pr s chat q =
        (AskOutcome.usageHint, withUsage QuotaKind.text
          (aset chat (today, countTodayMem QuotaKind.text today s chat + 1)
            (usageOf QuotaKind.text s)) s) := by
      unfold askCmdMem
      rw [hform]
      simp [hq]
    rw [hrun]
    exact ⟨Or.inl rfl, rfl, rfl, hcnt⟩
  · have hlong : maxQLen < q.length := by
      rcases hBad with hb | hb
      · exact absurd hb hq
      · exact hb
    have hrun : askCmdMem dp maxTurns dailyLimit maxQLen today pr s chat q =
        (AskOutcome.tooLong, withUsage QuotaKind.text
          (aset chat (today, countTodayMem QuotaKind.text today s chat + 1)
            (usageOf QuotaKind.text s)) s) := by
      unfold askCmdMem
      rw [hform]
      simp [hq, hlong]
    rw [hrun]
    exact ⟨Or.inr rfl, rfl, rfl, hcnt⟩

/-- Claim C10 witness: an over-length question still consumes a quota
unit while the history stays unchanged. -/
theorem c10_witness :
    ((askCmdMem "d" 10 15 3 0 (Except.ok "a") ⟨[], [], [], [], []⟩ 1 "hello").1
        = AskOutcome.usageHint ∨
     (askCmdMem "d" 10 15 3 0 (Except.ok "a") ⟨[], [], [], [], []⟩ 1 "hello").1
        = AskOutcome.tooLong) ∧
    (askCmdMem "d" 10 15 3 0 (Except.ok "a") ⟨[], [], [], [], []⟩ 1 "hello").2.histories
        = [] ∧
    countTodayMem QuotaKind.text 0
      (askCmdMem "d" 10 15 3 0 (Except.ok "a") ⟨[], [], [], [], []⟩ 1 "hello").2 1
      = countTodayMem QuotaKind.text 0 ⟨[], [], [], [], []⟩ 1 + 1 := by
  have h := c10_invalid_input_quota "d" 10 15 3 0 (Except.ok "a") ⟨[], [], [], [], []⟩
    1 "hello" (by decide) (by decide) (Or.inr (by decide))
  exact ⟨h.1, h.2.1, h.2.2.2⟩

end YaBot
